import Mathlib

/-!
Verification of the tox environment lifecycle engine (`src/tox/tox_env/api.py`).

The development shallowly embeds the `ToxEnv` class: its mutable attributes
become an explicit state record, methods become pure state-transformers that
additionally return a trace of observable events (log lines, hook invocations,
state-flag updates) and an optional raised exception.  Exceptions of the
source (`Recreate`, `Skip`, arbitrary collaborator failures) are values of an
error type; Python's `try/except/else/finally` is translated branch by branch.
-/

set_option autoImplicit false

namespace Tox

/-- Exceptions of the lifecycle: `Recreate` and `Skip` from `tox.tox_env.errors`,
plus `other` standing for an arbitrary non-tox collaborator failure. -/
inductive Err : Type where
  | recreate (reason : String)
  | skip (reason : String)
  | other (msg : String)
deriving Repr, DecidableEq

/-- The fingerprint record `{"name": ..., "type": ...}` computed by
`ToxEnv._setup_env` and stored in the per-environment cache. -/
structure Fingerprint : Type where
  name : String
  envType : String
deriving Repr, DecidableEq

/-- The `ToxEnv._run_state` dictionary: `{"setup": ..., "clean": ..., "teardown": ...}`. -/
structure RunState : Type where
  setup : Bool
  clean : Bool
  teardown : Bool
deriving Repr, DecidableEq

/-- The state of one `ToxEnv` object together with the bits of the filesystem
and configuration that the lifecycle methods touch.  `cacheToxEnv` is the
fingerprint stored in `self.cache` under the fixed marker `"ToxEnv"`. -/
structure EnvState : Type where
  runState : RunState
  cacheToxEnv : Option Fingerprint
  envDirExists : Bool
  tmpDirExists : Bool
  tmpDirNonEmpty : Bool
  confName : String
  envTypeName : String
  confRecreate : Bool
  confPlatform : String
  runsOnPlatform : String
deriving Repr, DecidableEq

/-- Observable events of a `setup`/`_clean` run, in program order. -/
inductive Event : Type where
  | logWarnRecreate (reason : String)
  | logWarnRemoveEnvDir
  | cleanCalled (force : Bool)
  | cleanPerformed
  | setupEnvRun
  | setupWithEnv (attempt : Nat)
  | doneWithSetup
  | runStateSet (setup clean : Bool)
deriving Repr, DecidableEq

/-- Modelled from the spec: `Info.compare` of `tox/tox_env/info.py` is not part
of the sources; section 4.4 of the spec describes it as a scoped
read-compare-write operation: read the stored fingerprint for the marker if
present; report whether it equals the candidate; if no prior fingerprint
existed, unconditionally persist the candidate as the new baseline and report
equality with no previous value; on mismatch the previous value stays stored.
The store is the single cell keyed by the marker `"ToxEnv"`.  The result is
`((eq, old), new store)`. -/
def Info.compare (candidate : Fingerprint) (store : Option Fingerprint) :
    (Bool × Option Fingerprint) × Option Fingerprint :=
  match store with
  | none => ((true, none), some candidate)
  | some old => ((old = candidate, some old), some old)

namespace ToxEnv

/-- `ToxEnv._platform_check`: raise `Skip` when a platform pattern is set and
the current platform does not fully match it.  The regular-expression engine
(`re.fullmatch`) is an external library and is passed in as `fullmatch`. -/
def platform_check (fullmatch : String → String → Bool) (s : EnvState) : Option Err :=
  if s.confPlatform ≠ "" then
    if fullmatch s.confPlatform s.runsOnPlatform then none
    else some (.skip ("platform " ++ s.runsOnPlatform ++ " does not match " ++ s.confPlatform))
  else none

/-- `ToxEnv._clean`: translated faithfully, including that the `force`
parameter is never read by the body (the source marks it `noqa: U100`): the
method returns early whenever the `clean` run-state flag is set, forced or
not.  Otherwise it removes the environment directory if it exists, resets the
fingerprint cache, and sets `setup := false, clean := true`. -/
def clean (s : EnvState) (force : Bool) : EnvState × List Event :=
  if s.runState.clean then (s, [.cleanCalled force])
  else
    let s1 := if s.envDirExists then { s with envDirExists := false } else s
    let ev1 : List Event := if s.envDirExists then [.logWarnRemoveEnvDir] else []
    ({ s1 with cacheToxEnv := none,
               runState := { s1.runState with setup := false, clean := true } },
     .cleanCalled force :: ev1 ++ [.cleanPerformed])

/-- `ToxEnv._handle_env_tmp_dir`: delete the temp folder when it exists and is
non-empty, then recreate it; the net effect is an existing empty folder. -/
def handle_env_tmp_dir (s : EnvState) : EnvState :=
  { s with tmpDirExists := true, tmpDirNonEmpty := false }

/-- `ToxEnv._setup_env`: compute the fingerprint `{"name", "type"}`, compare it
against the cache under marker `"ToxEnv"`, raise `Recreate` when it differs
from a pre-existing stored value, then refresh the temp dir. -/
def setup_env (s : EnvState) : Except Err EnvState × List Event :=
  let candidate : Fingerprint := { name := s.confName, envType := s.envTypeName }
  let cmp := Info.compare candidate s.cacheToxEnv
  let eq := cmp.1.1
  let old := cmp.1.2
  match old with
  | some o =>
    if eq = false then
      (.error (.recreate ("env type changed from " ++ o.name ++ " " ++ o.envType ++
        " to " ++ candidate.name ++ " " ++ candidate.envType)), [.setupEnvRun])
    else
      (.ok (handle_env_tmp_dir { s with cacheToxEnv := cmp.2 }), [.setupEnvRun])
  | none =>
    (.ok (handle_env_tmp_dir { s with cacheToxEnv := cmp.2 }), [.setupEnvRun])

/-- One provisioning attempt of the `try` body of `ToxEnv.setup`:
`self._setup_env()` followed by `self._setup_with_env()`.  The latter is a
subclass/installer hook; its behaviour on attempt `n` is given by `hook n`
(`none` = returns normally, `some e` = raises `e`).  The returned state is the
state after whatever part of the attempt ran before an exception. -/
def tryOnce (hook : Nat → Option Err) (attempt : Nat) (s : EnvState) :
    EnvState × Option Err × List Event :=
  match setup_env s with
  | (.error e, ev) => (s, some e, ev)
  | (.ok s1, ev) =>
    match hook attempt with
    | some e => (s1, some e, ev ++ [.setupWithEnv attempt])
    | none => (s1, none, ev ++ [.setupWithEnv attempt])

/-- Result of one `ToxEnv.setup` call: the final object state, the exception
that propagates to the caller (if any), and the event trace. -/
structure SetupOut : Type where
  state : EnvState
  err : Option Err
  trace : List Event
deriving Repr, DecidableEq

/-- The `finally` clause of `ToxEnv.setup`:
`self._run_state.update({"setup": True, "clean": False})`, run on every exit
path of the `try` statement. -/
def finalize (s : EnvState) (err : Option Err) (tr : List Event) : SetupOut :=
  ⟨{ s with runState := { s.runState with setup := true, clean := false } }, err,
   tr ++ [.runStateSet true false]⟩

/-- `ToxEnv.setup(recreate)`: short-circuit when the `setup` flag is already
set; otherwise platform-check, optionally clean, then
`try/except Recreate/else/finally` exactly as in the source.  A `Recreate`
from the first attempt is retried once (with a warning and a forced clean)
only when the effective recreate flag is false, and is swallowed otherwise;
an exception from the retry propagates; the `finally` flag update always
runs once the `try` statement was entered. -/
def setup (fullmatch : String → String → Bool) (hook : Nat → Option Err)
    (recreateArg : Bool) (s : EnvState) : SetupOut :=
  if s.runState.setup = false then
    match platform_check fullmatch s with
    | some e => ⟨s, some e, []⟩
    | none =>
      let recreate := recreateArg || s.confRecreate
      let s1 := if recreate then (clean s false).1 else s
      let tr1 := if recreate then (clean s false).2 else ([] : List Event)
      let t := tryOnce hook 0 s1
      match t.2.1 with
      | none => finalize t.1 none (tr1 ++ t.2.2 ++ [.doneWithSetup])
      | some (Err.recreate reason) =>
        if recreate then finalize t.1 none (tr1 ++ t.2.2)
        else
          let t2 := tryOnce hook 1 (clean t.1 true).1
          finalize t2.1 t2.2.1
            (tr1 ++ t.2.2 ++ [.logWarnRecreate reason] ++ (clean t.1 true).2 ++ t2.2.2)
      | some e => finalize t.1 (some e) (tr1 ++ t.2.2)
  else ⟨s, none, []⟩

/-- Is an event an invocation of the `_setup_with_env` provisioning hook? -/
def isHookCall (e : Event) : Bool :=
  match e with
  | .setupWithEnv _ => true
  | _ => false

/-- Is an event a run of `_setup_env` (a provisioning attempt)? -/
def isSetupEnvRun (e : Event) : Bool :=
  match e with
  | .setupEnvRun => true
  | _ => false

/-- Number of `_setup_with_env` (provisioning hook) invocations in a trace. -/
def countHookCalls (tr : List Event) : Nat := tr.countP isHookCall

/-- Number of `_setup_env` runs (provisioning attempts) in a trace. -/
def countSetupEnvRuns (tr : List Event) : Nat := tr.countP isSetupEnvRun

end ToxEnv

/-- A fresh environment state used for concrete evaluations. -/
def s0 : EnvState :=
  { runState := { setup := false, clean := false, teardown := false }
    cacheToxEnv := none
    envDirExists := false
    tmpDirExists := false
    tmpDirNonEmpty := false
    confName := "py"
    envTypeName := "VirtualEnv"
    confRecreate := false
    confPlatform := ""
    runsOnPlatform := "linux" }

/-- A provisioning hook raising `Recreate` on every attempt, with a reason
identifying the attempt. -/
def hookRR : Nat → Option Err :=
  fun n => some (.recreate (if n = 0 then "first" else "second"))

/-- A provisioning hook that always succeeds. -/
def hookOk : Nat → Option Err := fun _ => none


/-! ## Environment-variable resolution (`_environment_variables`, `_paths`, `_make_path`) -/

/-- Lookup in an association-list model of a Python `dict` / `os.environ`
(first matching key wins; a well-formed dict has unique keys). -/
def dlookup (d : List (String × String)) (k : String) : Option String :=
  match d with
  | [] => none
  | p :: rest => if p.1 = k then some p.2 else dlookup rest k

/-- Python `dict` assignment `d[k] = v` on the association-list model: an
existing key keeps its position and gets the new value, a new key is appended
at the end (insertion order). -/
def dictSet (d : List (String × String)) (k v : String) : List (String × String) :=
  match d with
  | [] => [(k, v)]
  | p :: rest => if p.1 = k then (p.1, v) :: rest else p :: dictSet rest k v

/-- Keys of an association-list dict, in order. -/
def dkeys (d : List (String × String)) : List String := d.map Prod.fst

/-- Helper of `dedupFirst`: drop elements already seen (first occurrence wins),
accumulating the set of seen elements. -/
def dedupFirstAux (seen : List String) : List String → List String
  | [] => []
  | x :: xs => if x ∈ seen then dedupFirstAux seen xs else x :: dedupFirstAux (x :: seen) xs

/-- `dict.fromkeys` insertion-order de-duplication: keep the first occurrence
of each element, preserving order. -/
def dedupFirst (l : List String) : List String := dedupFirstAux [] l

/-- Python `str.split(sep)` on the character list: splits on every separator,
`[[]]` for the empty string (so `"".split(":") == [""]`). -/
def splitChar (sep : Char) : List Char → List (List Char)
  | [] => [[]]
  | c :: cs =>
    if c = sep then [] :: splitChar sep cs
    else
      match splitChar sep cs with
      | [] => [[c]]
      | g :: gs => (c :: g) :: gs

/-- Python `str.split(sep)` producing strings. -/
def pySplit (sep : Char) (s : String) : List String :=
  (splitChar sep s.toList).map (fun g => String.mk g)

/-- Python `sep.join(parts)`. -/
def joinSep (sep : String) : List String → String
  | [] => ""
  | [x] => x
  | x :: xs => x ++ sep ++ joinSep sep xs

/-- The ordered duplicate-free list of directories built by `ToxEnv._make_path`:
`dict.fromkeys` over the owned paths, updated with `dict.fromkeys` over the
inherited `PATH` split on the path separator (modelled as POSIX `":"`). -/
def pathItems (paths : List String) (osEnv : List (String × String)) : List String :=
  dedupFirst (paths ++ pySplit ':' ((dlookup osEnv "PATH").getD ""))

/-- `ToxEnv._make_path`: join the de-duplicated directories with the path
separator. -/
def make_path (paths : List String) (osEnv : List (String × String)) : String :=
  joinSep ":" (pathItems paths osEnv)

/-- Python `"*" in e`: does a pass-through entry contain a wildcard? -/
def hasStar (e : String) : Bool := e.toList.contains '*'

/-- Tokens of the regular expression obtained from a pass-through glob entry by
`e.replace("*", ".*")`: a `*` of the entry becomes `anyStar` (the regex `.*`),
a `.` of the entry is the regex wildcard for one character, every other
character matches itself literally (entries are variable-name globs; other
regex metacharacters do not occur in them). -/
inductive RTok : Type where
  | lit (c : Char)
  | anyChar
  | anyStar
deriving Repr, DecidableEq

/-- Compile a pass-through glob entry to the token list of
`re.compile(e.replace("*", ".*"))`. -/
def compileGlob (e : String) : List RTok :=
  e.toList.map (fun c => if c = '*' then RTok.anyStar else if c = '.' then RTok.anyChar else RTok.lit c)

/-- All suffixes of a character list, longest first (including the empty one). -/
def suffixes : List Char → List (List Char)
  | [] => [[]]
  | x :: xs => (x :: xs) :: suffixes xs

/-- `re.match` semantics for the compiled glob tokens: the regex is anchored at
the start of the name only, so the match succeeds when the tokens match some
prefix of the input; `anyStar` consumes any number of characters. -/
def reMatchPre : List RTok → List Char → Bool
  | [], _ => true
  | RTok.lit _ :: _, [] => false
  | RTok.lit c :: ps, x :: xs => x = c && reMatchPre ps xs
  | RTok.anyChar :: _, [] => false
  | RTok.anyChar :: ps, _ :: xs => reMatchPre ps xs
  | RTok.anyStar :: ps, xs => (suffixes xs).any (fun ys => reMatchPre ps ys)

/-- `g.match(env) is not None` for a compiled pass-through glob entry. -/
def globMatch (e : String) (n : String) : Bool := reMatchPre (compileGlob e) n.toList

/-- The two pass-through loops of `ToxEnv._environment_variables`: literal
entries are looked up in `os.environ` by exact name; when glob entries exist,
every entry of the whole live `os.environ` matching one of them is copied. -/
def passthrough_vars (passEnv : List String) (osEnv : List (String × String)) :
    List (String × String) :=
  let literalPassEnv := passEnv.filter (fun e => !hasStar e)
  let globPassEnv := passEnv.filter (fun e => hasStar e)
  let afterLiteral := literalPassEnv.foldl
    (fun acc e =>
      match dlookup osEnv e with
      | some v => dictSet acc e v
      | none => acc) []
  if globPassEnv.isEmpty then afterLiteral
  else
    osEnv.foldl
      (fun acc kv =>
        if globPassEnv.any (fun g => globMatch g kv.1) then dictSet acc kv.1 kv.2 else acc)
      afterLiteral

/-- `set_env.load(key)`: the override mapping's own resolution, modelled as
lookup in the override association list (its lazy-loading machinery is an
external collaborator). -/
def setEnvLoad (se : List (String × String)) (k : String) : String :=
  (dlookup se k).getD ""

/-- The body of `ToxEnv._environment_variables` past the memoization check:
pass-through copies, then the `PATH` entry, then the explicit `set_env`
overrides inserted last. -/
def environment_variables_compute (passEnv : List String) (setEnv osEnv : List (String × String))
    (paths : List String) : List (String × String) :=
  setEnv.foldl (fun acc kv => dictSet acc kv.1 (setEnvLoad setEnv kv.1))
    (dictSet (passthrough_vars passEnv osEnv) "PATH" (make_path paths osEnv))

/-- The resolver-relevant state of a `ToxEnv` object: configuration inputs, the
owned path list `_paths_private`, and the memoized mapping `_env_vars`. -/
structure VarState : Type where
  passEnv : List String
  setEnv : List (String × String)
  osEnv : List (String × String)
  pathsPrivate : List String
  envVarsCache : Option (List (String × String))
deriving Repr, DecidableEq

/-- The `_environment_variables` property: return the memoized mapping if
present, otherwise compute it and cache it.  (The source stores the dict
object in `_env_vars` before the `PATH`/`set_env` steps and mutates it in
place; since the override loader is modelled as a pure lookup, no reentrant
read can observe the partial dict, and caching the finished mapping is
equivalent.) -/
def environment_variables (st : VarState) : List (String × String) × VarState :=
  match st.envVarsCache with
  | some d => (d, st)
  | none =>
    let d := environment_variables_compute st.passEnv st.setEnv st.osEnv st.pathsPrivate
    (d, { st with envVarsCache := some d })

/-- The `_paths` setter: store the new list and, when a mapping was already
memoized, recompute and overwrite its `PATH` entry in place. -/
def paths_set (st : VarState) (value : List String) : VarState :=
  let st1 := { st with pathsPrivate := value }
  match st1.envVarsCache with
  | none => st1
  | some d => { st1 with envVarsCache := some (dictSet d "PATH" (make_path value st1.osEnv)) }

/-! ## Execution and interruption (`interrupt`, `execute_async`) -/

/-- The execution-relevant state of a `ToxEnv` object: the `_interrupted` flag
and the registry `_execute_statuses` (ids of live statuses). -/
structure ExecEnv : Type where
  interrupted : Bool
  statuses : List Nat
  confName : String
deriving Repr, DecidableEq

/-- Observable events of `interrupt`/`execute_async`, in program order. -/
inductive ExecEvent : Type where
  | logWarnInterrupt (name : String)
  | statusInterrupt (id : Nat)
  | resolveCwd
  | resolveShow
  | buildRequest
  | logCmd
  | spawn
  | register (id : Nat)
  | deregister (id : Nat)
deriving Repr, DecidableEq

/-- `SystemExit(-2)`, the hard-abort raised by `execute_async` after an
interruption. -/
inductive ExecErr : Type where
  | systemExit (code : Int)
deriving Repr, DecidableEq

/-- `ToxEnv.interrupt`: log, set the `_interrupted` flag, and forward an
interrupt to every currently registered execution status. -/
def interrupt (s : ExecEnv) : ExecEnv × List ExecEvent :=
  ({ s with interrupted := true },
   .logWarnInterrupt s.confName :: s.statuses.map ExecEvent.statusInterrupt)

/-- `ToxEnv.execute_async`: when the environment was interrupted, raise
`SystemExit(-2)` before anything else (no cwd resolution, no request build, no
subprocess); otherwise resolve defaults, build the request, log, spawn, and
register/deregister the status around the scope. -/
def execute_async (s : ExecEnv) (newId : Nat) : Except ExecErr ExecEnv × List ExecEvent :=
  if s.interrupted then (.error (.systemExit (-2)), [])
  else
    (.ok s, [.resolveCwd, .resolveShow, .buildRequest, .logCmd, .spawn,
             .register newId, .deregister newId])

/-- A sequence of `execute_async` calls threaded through the state, recording
each call's outcome and trace. -/
def execute_async_seq (s : ExecEnv) : List Nat → List (Except ExecErr ExecEnv × List ExecEvent)
  | [] => []
  | id :: ids =>
    let r := execute_async s id
    r :: execute_async_seq (match r.1 with | .ok s1 => s1 | .error _ => s) ids


/-! ## Association-list dictionary lemmas -/

theorem dictSet_dlookup_self (d : List (String × String)) (k v : String) :
    dlookup (dictSet d k v) k = some v := by
  induction d with
  | nil => simp [dictSet, dlookup]
  | cons p rest ih =>
    by_cases h : p.1 = k
    · simp [dictSet, dlookup, h]
    · simp [dictSet, dlookup, h, ih]

theorem dictSet_dlookup_ne (d : List (String × String)) (k v k' : String) (h : k' ≠ k) :
    dlookup (dictSet d k v) k' = dlookup d k' := by
  induction d with
  | nil =>
    have hk : ¬k = k' := fun hh => h hh.symm
    simp [dictSet, dlookup, hk]
  | cons p rest ih =>
    have hk : ¬k = k' := fun hh => h hh.symm
    by_cases hp : p.1 = k
    · have hp' : ¬p.1 = k' := by
        rw [hp]
        exact hk
      simp [dictSet, dlookup, hp, hp', h, hk]
    · by_cases hp' : p.1 = k'
      · simp [dictSet, dlookup, hp, hp', h, hk]
      · simp [dictSet, dlookup, hp, hp', h, hk, ih]

theorem dictSet_dkeys_of_mem : ∀ (d : List (String × String)) (k v : String),
    k ∈ dkeys d → dkeys (dictSet d k v) = dkeys d := by
  intro d k v
  induction d with
  | nil =>
    intro h
    simp [dkeys] at h
  | cons p rest ih =>
    intro h
    by_cases hp : p.1 = k
    · simp [dictSet, dkeys, hp]
    · have h2 : k = p.1 ∨ k ∈ dkeys rest := by simpa [dkeys, List.mem_cons] using h
      have hmem : k ∈ dkeys rest := by
        rcases h2 with h1 | h1
        · exact absurd h1.symm hp
        · exact h1
      simp only [dictSet, hp, if_false, ite_false, dkeys, List.map_cons]
      have := ih hmem
      simp only [dkeys] at this
      rw [this]

/-! ## Claim C3: `_clean` and its unused `force` parameter -/

/-- An environment state whose `clean` run-state flag is set while its
directory still exists and a fingerprint is cached. -/
def sCleaned : EnvState :=
  { s0 with
    runState := { setup := false, clean := true, teardown := false }
    envDirExists := true
    cacheToxEnv := some { name := "py", envType := "VirtualEnv" } }

/-- Claim C3, evaluated at the failing input: with the `cleaned` flag set and
`force = true`, `_clean` returns immediately — contrary to the claim, it does
not delete the existing environment directory, does not reset the fingerprint
cache, and does not update the flags, because the source never reads the
`force` parameter. -/
theorem clean_ignores_force :
    ToxEnv.clean sCleaned true = (sCleaned, [Event.cleanCalled true]) ∧
    (ToxEnv.clean sCleaned true).1.envDirExists = true ∧
    (ToxEnv.clean sCleaned true).1.cacheToxEnv = some { name := "py", envType := "VirtualEnv" } ∧
    (ToxEnv.clean sCleaned true).1.runState.setup = sCleaned.runState.setup :=
  ⟨rfl, rfl, rfl, rfl⟩

/-! ## Claim C5: fingerprint comparison during `_setup_env` -/

/-- Claim C5: during `_setup_env`, with no prior stored fingerprint the
candidate `{name, type}` is persisted as the new baseline and no `Recreate` is
raised; with a pre-existing different fingerprint, `Recreate` is raised
carrying a reason naming both fingerprints (the cache modelled from the spec,
see `Info.compare`). -/
theorem setup_env_fingerprint (s : EnvState) :
    (s.cacheToxEnv = none →
      ∃ s1, ToxEnv.setup_env s = (.ok s1, [Event.setupEnvRun]) ∧
        s1.cacheToxEnv = some { name := s.confName, envType := s.envTypeName }) ∧
    (∀ old, s.cacheToxEnv = some old →
      old ≠ { name := s.confName, envType := s.envTypeName } →
      ToxEnv.setup_env s =
        (.error (.recreate ("env type changed from " ++ old.name ++ " " ++ old.envType ++
          " to " ++ s.confName ++ " " ++ s.envTypeName)), [Event.setupEnvRun])) := by
  constructor
  · intro h
    refine ⟨ToxEnv.handle_env_tmp_dir
      { s with cacheToxEnv := some { name := s.confName, envType := s.envTypeName } }, ?_, rfl⟩
    simp [ToxEnv.setup_env, Info.compare, h]
  · intro old h hne
    simp [ToxEnv.setup_env, Info.compare, h, hne]

/-- A state carrying a stored fingerprint that differs from the fresh one. -/
def sMismatch : EnvState := { s0 with cacheToxEnv := some { name := "old", envType := "T" } }

/-- Witness for `setup_env_fingerprint` at concrete states: a fresh cache
stores the baseline with no error; a differing stored fingerprint yields a
`Recreate` with its reason. -/
theorem setup_env_fingerprint_witness :
    (∃ s1, ToxEnv.setup_env s0 = (.ok s1, [Event.setupEnvRun]) ∧
      s1.cacheToxEnv = some { name := "py", envType := "VirtualEnv" }) ∧
    ToxEnv.setup_env sMismatch =
      (.error (.recreate ("env type changed from " ++ "old" ++ " " ++ "T" ++
        " to " ++ "py" ++ " " ++ "VirtualEnv")), [Event.setupEnvRun]) :=
  ⟨(setup_env_fingerprint s0).1 rfl,
   (setup_env_fingerprint sMismatch).2 { name := "old", envType := "T" } rfl (by decide)⟩

/-! ## Claim C7: the `_paths` setter updates only the cached `PATH` entry -/

/-- Claim C7: when the variable mapping is already memoized, assigning the
owned path list recomputes and overwrites exactly the `PATH` entry of the
cached mapping: the cache stays memoized (the getter serves it without
recomputation), `PATH` maps to the freshly computed path string, every other
key keeps its resolved value, and the key order is unchanged whenever `PATH`
was already present. -/
theorem paths_setter_updates_only_path (st : VarState) (d : List (String × String))
    (v : List String) (h : st.envVarsCache = some d) :
    (paths_set st v).pathsPrivate = v ∧
    (paths_set st v).envVarsCache = some (dictSet d "PATH" (make_path v st.osEnv)) ∧
    (environment_variables (paths_set st v)).1 = dictSet d "PATH" (make_path v st.osEnv) ∧
    dlookup (dictSet d "PATH" (make_path v st.osEnv)) "PATH" = some (make_path v st.osEnv) ∧
    (∀ k, k ≠ "PATH" → dlookup (dictSet d "PATH" (make_path v st.osEnv)) k = dlookup d k) ∧
    ("PATH" ∈ dkeys d → dkeys (dictSet d "PATH" (make_path v st.osEnv)) = dkeys d) := by
  refine ⟨?_, ?_, ?_, dictSet_dlookup_self d "PATH" (make_path v st.osEnv), ?_, ?_⟩
  · simp [paths_set, h]
  · simp [paths_set, h]
  · simp [paths_set, environment_variables, h]
  · intro k hk
    exact dictSet_dlookup_ne d "PATH" (make_path v st.osEnv) k hk
  · intro hmem
    exact dictSet_dkeys_of_mem d "PATH" (make_path v st.osEnv) hmem

/-- A memoized resolver state used as concrete input. -/
def vs0 : VarState :=
  { passEnv := []
    setEnv := []
    osEnv := [("PATH", "/usr/bin")]
    pathsPrivate := []
    envVarsCache := some [("HOME", "/h"), ("PATH", "/usr/bin")] }

/-- Witness for `paths_setter_updates_only_path` at a concrete memoized state:
only the `PATH` entry of the cache changes, `HOME` keeps its value. -/
theorem paths_setter_updates_only_path_witness :
    (paths_set vs0 ["/tox/bin"]).envVarsCache =
      some (dictSet [("HOME", "/h"), ("PATH", "/usr/bin")] "PATH"
        (make_path ["/tox/bin"] vs0.osEnv)) ∧
    dlookup (dictSet [("HOME", "/h"), ("PATH", "/usr/bin")] "PATH"
        (make_path ["/tox/bin"] vs0.osEnv)) "HOME" =
      dlookup [("HOME", "/h"), ("PATH", "/usr/bin")] "HOME" :=
  ⟨(paths_setter_updates_only_path vs0 [("HOME", "/h"), ("PATH", "/usr/bin")]
      ["/tox/bin"] rfl).2.1,
   (paths_setter_updates_only_path vs0 [("HOME", "/h"), ("PATH", "/usr/bin")]
      ["/tox/bin"] rfl).2.2.2.2.1 "HOME" (by decide)⟩

/-! ## Claim C9: interruption fences every later `execute_async` -/

/-- Claim C9: `interrupt()` sets the interrupted flag, and on an interrupted
environment every subsequent `execute_async` call — also along any sequence of
further calls — fails immediately with `SystemExit(-2)` with an empty event
trace, so the working directory is never resolved, no request is built, and
no subprocess is spawned. -/
theorem interrupt_fences_execute_async (s : ExecEnv) :
    (interrupt s).1.interrupted = true ∧
    (∀ id, execute_async (interrupt s).1 id = (.error (.systemExit (-2)), [])) ∧
    (∀ ids r, r ∈ execute_async_seq (interrupt s).1 ids →
      r = (.error (.systemExit (-2)), ([] : List ExecEvent)) ∧
      ExecEvent.spawn ∉ r.2 ∧ ExecEvent.buildRequest ∉ r.2 ∧ ExecEvent.resolveCwd ∉ r.2) := by
  have hint : (interrupt s).1.interrupted = true := by simp [interrupt]
  have hexec : ∀ (t : ExecEnv), t.interrupted = true →
      ∀ id, execute_async t id = (.error (.systemExit (-2)), []) := by
    intro t ht id
    simp [execute_async, ht]
  have hseq : ∀ (ids : List Nat) (t : ExecEnv), t.interrupted = true →
      ∀ r, r ∈ execute_async_seq t ids →
        r = (.error (.systemExit (-2)), ([] : List ExecEvent)) := by
    intro ids
    induction ids with
    | nil =>
      intro t ht r hr
      simp [execute_async_seq] at hr
    | cons id rest ih =>
      intro t ht r hr
      rw [execute_async_seq, hexec t ht id] at hr
      rcases (by simpa using hr) with h1 | h1
      · exact h1
      · exact ih t ht r h1
  refine ⟨hint, hexec _ hint, ?_⟩
  intro ids r hr
  have h1 := hseq ids _ hint r hr
  refine ⟨h1, ?_, ?_, ?_⟩ <;> simp [h1]

/-- A concrete execution state with two registered statuses. -/
def e0 : ExecEnv := { interrupted := false, statuses := [10, 11], confName := "py" }

/-- Witness for `interrupt_fences_execute_async` at a concrete state: the flag
is set, a later call hard-aborts, and a member of a two-call sequence after the
interrupt hard-aborts with no spawn. -/
theorem interrupt_fences_execute_async_witness :
    (interrupt e0).1.interrupted = true ∧
    execute_async (interrupt e0).1 7 = (.error (.systemExit (-2)), []) ∧
    ((.error (.systemExit (-2)), ([] : List ExecEvent)) =
        ((Except.error (ExecErr.systemExit (-2)) : Except ExecErr ExecEnv),
          ([] : List ExecEvent)) ∧
      ExecEvent.spawn ∉ ([] : List ExecEvent) ∧
      ExecEvent.buildRequest ∉ ([] : List ExecEvent) ∧
      ExecEvent.resolveCwd ∉ ([] : List ExecEvent)) :=
  ⟨(interrupt_fences_execute_async e0).1,
   (interrupt_fences_execute_async e0).2.1 7,
   (interrupt_fences_execute_async e0).2.2 [5, 6]
     (.error (.systemExit (-2)), ([] : List ExecEvent)) (List.Mem.head _)⟩

/-! ## Fold lemmas for the resolver loops -/

theorem setenv_fold_dlookup_not_mem (se0 : List (String × String)) :
    ∀ (se acc : List (String × String)) (k : String), k ∉ dkeys se →
      dlookup (se.foldl (fun acc kv => dictSet acc kv.1 (setEnvLoad se0 kv.1)) acc) k =
        dlookup acc k := by
  intro se
  induction se with
  | nil =>
    intro acc k _
    rfl
  | cons kv rest ih =>
    intro acc k h
    have hk : k ≠ kv.1 := by
      intro hh
      exact h (by simp [dkeys, hh])
    have h2 : k ∉ dkeys rest := by
      intro hh
      exact h (by simp [dkeys] at hh ⊢; exact Or.inr hh)
    rw [List.foldl_cons, ih _ k h2, dictSet_dlookup_ne _ _ _ _ hk]

theorem setenv_fold_dlookup_mem (se0 : List (String × String)) :
    ∀ (se acc : List (String × String)) (k : String), k ∈ dkeys se →
      dlookup (se.foldl (fun acc kv => dictSet acc kv.1 (setEnvLoad se0 kv.1)) acc) k =
        some (setEnvLoad se0 k) := by
  intro se
  induction se with
  | nil =>
    intro acc k h
    simp [dkeys] at h
  | cons kv rest ih =>
    intro acc k h
    by_cases hr : k ∈ dkeys rest
    · rw [List.foldl_cons]
      exact ih _ k hr
    · have hk : k = kv.1 := by
        rcases (by simpa [dkeys, List.mem_cons] using h : k = kv.1 ∨ k ∈ dkeys rest) with h1 | h1
        · exact h1
        · exact absurd h1 hr
      rw [List.foldl_cons, setenv_fold_dlookup_not_mem se0 rest _ k hr, hk,
        dictSet_dlookup_self]

theorem glob_fold_dlookup_not_mem (globs : List String) :
    ∀ (os acc : List (String × String)) (n : String), n ∉ dkeys os →
      dlookup (os.foldl (fun acc kv =>
          if globs.any (fun g => globMatch g kv.1) then dictSet acc kv.1 kv.2 else acc) acc) n =
        dlookup acc n := by
  intro os
  induction os with
  | nil =>
    intro acc n _
    rfl
  | cons kv rest ih =>
    intro acc n h
    have hk : n ≠ kv.1 := by
      intro hh
      exact h (by simp [dkeys, hh])
    have h2 : n ∉ dkeys rest := by
      intro hh
      exact h (by simp [dkeys] at hh ⊢; exact Or.inr hh)
    rw [List.foldl_cons, ih _ n h2]
    by_cases hm : globs.any (fun g => globMatch g kv.1) = true
    · rw [if_pos hm]
      exact dictSet_dlookup_ne _ _ _ _ hk
    · rw [if_neg hm]

theorem glob_fold_dlookup_mem (globs : List String) :
    ∀ (os acc : List (String × String)) (n v : String), (dkeys os).Nodup →
      dlookup os n = some v → globs.any (fun g => globMatch g n) = true →
      dlookup (os.foldl (fun acc kv =>
          if globs.any (fun g => globMatch g kv.1) then dictSet acc kv.1 kv.2 else acc) acc) n =
        some v := by
  intro os
  induction os with
  | nil =>
    intro acc n v _ hl _
    simp [dlookup] at hl
  | cons kv rest ih =>
    intro acc n v hnd hl hany
    have hcons : kv.1 ∉ dkeys rest ∧ (dkeys rest).Nodup := by
      rw [show dkeys (kv :: rest) = kv.1 :: dkeys rest from rfl] at hnd
      exact List.nodup_cons.mp hnd
    by_cases h1 : kv.1 = n
    · have hv : v = kv.2 := by
        rw [dlookup, if_pos h1] at hl
        exact (Option.some_inj.mp hl).symm
      have hcond : globs.any (fun g => globMatch g kv.1) = true := by
        rw [h1]
        exact hany
      rw [List.foldl_cons, glob_fold_dlookup_not_mem globs rest _ n (h1 ▸ hcons.1)]
      rw [if_pos hcond, h1, hv]
      exact dictSet_dlookup_self _ _ _
    · have hl2 : dlookup rest n = some v := by
        rw [dlookup, if_neg h1] at hl
        exact hl
      rw [List.foldl_cons]
      exact ih _ n v hcons.2 hl2 hany

theorem lit_fold_dlookup_not_mem (os : List (String × String)) :
    ∀ (lit : List String) (acc : List (String × String)) (n : String), n ∉ lit →
      dlookup (lit.foldl (fun acc e =>
          match dlookup os e with
          | some v => dictSet acc e v
          | none => acc) acc) n =
        dlookup acc n := by
  intro lit
  induction lit with
  | nil =>
    intro acc n _
    rfl
  | cons e rest ih =>
    intro acc n h
    have he : n ≠ e := fun hh => h (by simp [hh])
    have h2 : n ∉ rest := fun hh => h (by simp [hh])
    rw [List.foldl_cons, ih _ n h2]
    cases hos : dlookup os e with
    | none => rfl
    | some w => exact dictSet_dlookup_ne _ _ _ _ he

theorem lit_fold_dlookup_mem (os : List (String × String)) :
    ∀ (lit : List String) (acc : List (String × String)) (n v : String), n ∈ lit →
      dlookup os n = some v →
      dlookup (lit.foldl (fun acc e =>
          match dlookup os e with
          | some v => dictSet acc e v
          | none => acc) acc) n =
        some v := by
  intro lit
  induction lit with
  | nil =>
    intro acc n v h _
    simp at h
  | cons e rest ih =>
    intro acc n v h hos
    by_cases hr : n ∈ rest
    · rw [List.foldl_cons]
      exact ih _ n v hr hos
    · have hn : n = e := by
        rcases (by simpa using h : n = e ∨ n ∈ rest) with h1 | h1
        · exact h1
        · exact absurd h1 hr
      subst hn
      rw [List.foldl_cons, lit_fold_dlookup_not_mem os rest _ n hr]
      rw [hos]
      exact dictSet_dlookup_self _ _ _

theorem lit_fold_dlookup_none (os : List (String × String)) :
    ∀ (lit : List String) (acc : List (String × String)) (n : String), dlookup os n = none →
      dlookup (lit.foldl (fun acc e =>
          match dlookup os e with
          | some v => dictSet acc e v
          | none => acc) acc) n =
        dlookup acc n := by
  intro lit
  induction lit with
  | nil =>
    intro acc n _
    rfl
  | cons e rest ih =>
    intro acc n h
    rw [List.foldl_cons, ih _ n h]
    cases hos : dlookup os e with
    | none => rfl
    | some w =>
      have he : n ≠ e := by
        intro hh
        rw [hh, hos] at h
        exact Option.noConfusion h
      exact dictSet_dlookup_ne _ _ _ _ he

/-! ## Claim C6: layering order of the resolved variable mapping -/

/-- Claim C6: the mapping is assembled passthrough first, then the `PATH`
entry, then the explicit `set_env` overrides last, so an override always wins:
every `set_env` key resolves to its `set_env` value; `PATH` (unless itself
overridden) resolves to the computed path string; every other key keeps the
passthrough stage's value; and in the concrete scenario of the claim —
pass-through pattern `FOO*`, process environment `FOOBAR=1`, override
`FOOBAR=2` — the resolved mapping has `FOOBAR = 2`. -/
theorem env_vars_layering (pe : List String) (se os : List (String × String))
    (paths : List String) :
    (∀ k, k ∈ dkeys se →
      dlookup (environment_variables_compute pe se os paths) k = some (setEnvLoad se k)) ∧
    ("PATH" ∉ dkeys se →
      dlookup (environment_variables_compute pe se os paths) "PATH" =
        some (make_path paths os)) ∧
    (∀ k, k ≠ "PATH" → k ∉ dkeys se →
      dlookup (environment_variables_compute pe se os paths) k =
        dlookup (passthrough_vars pe os) k) ∧
    dlookup (environment_variables_compute ["FOO*"] [("FOOBAR", "2")] [("FOOBAR", "1")] [])
      "FOOBAR" = some "2" := by
  refine ⟨?_, ?_, ?_, by rfl⟩
  · intro k hk
    unfold environment_variables_compute
    exact setenv_fold_dlookup_mem se se _ k hk
  · intro h
    unfold environment_variables_compute
    rw [setenv_fold_dlookup_not_mem se se _ "PATH" h]
    exact dictSet_dlookup_self _ _ _
  · intro k hk hnot
    unfold environment_variables_compute
    rw [setenv_fold_dlookup_not_mem se se _ k hnot]
    exact dictSet_dlookup_ne _ _ _ _ hk

/-- Witness for `env_vars_layering` at the claim's concrete scenario. -/
theorem env_vars_layering_witness :
    dlookup (environment_variables_compute ["FOO*"] [("FOOBAR", "2")] [("FOOBAR", "1")] [])
      "FOOBAR" = some (setEnvLoad [("FOOBAR", "2")] "FOOBAR") ∧
    dlookup (environment_variables_compute ["FOO*"] [("FOOBAR", "2")] [("FOOBAR", "1")] [])
      "PATH" = some (make_path [] [("FOOBAR", "1")]) :=
  ⟨(env_vars_layering ["FOO*"] [("FOOBAR", "2")] [("FOOBAR", "1")] []).1 "FOOBAR" (by decide),
   (env_vars_layering ["FOO*"] [("FOOBAR", "2")] [("FOOBAR", "1")] []).2.1 (by decide)⟩

/-! ## Claim C10: glob conversion and start-anchored matching -/

theorem suffixes_self (l : List Char) : l ∈ suffixes l := by
  cases l <;> simp [suffixes]

theorem suffixes_append (m : List Char) :
    ∀ (n ys : List Char), ys ∈ suffixes n → ys ++ m ∈ suffixes (n ++ m) := by
  intro n
  induction n with
  | nil =>
    intro ys h
    have hy : ys = [] := by simpa [suffixes] using h
    subst hy
    simpa using suffixes_self m
  | cons x xs ih =>
    intro ys h
    rcases (by simpa [suffixes] using h : ys = x :: xs ∨ ys ∈ suffixes xs) with h1 | h1
    · subst h1
      simp [suffixes]
    · rw [List.cons_append, show suffixes (x :: (xs ++ m)) =
        (x :: (xs ++ m)) :: suffixes (xs ++ m) from rfl]
      exact List.mem_cons_of_mem _ (ih ys h1)

/-- A regex match of the compiled tokens is only anchored at the start:
matching survives appending arbitrary trailing characters to the input. -/
theorem reMatchPre_append :
    ∀ (ps : List RTok) (n m : List Char),
      reMatchPre ps n = true → reMatchPre ps (n ++ m) = true := by
  intro ps
  induction ps with
  | nil =>
    intro n m _
    rfl
  | cons t rest ih =>
    intro n m h
    cases t with
    | lit c =>
      cases n with
      | nil => simp [reMatchPre] at h
      | cons x xs =>
        simp only [reMatchPre, Bool.and_eq_true, decide_eq_true_eq] at h
        simp only [List.cons_append, reMatchPre, Bool.and_eq_true, decide_eq_true_eq]
        exact ⟨h.1, ih xs m h.2⟩
    | anyChar =>
      cases n with
      | nil => simp [reMatchPre] at h
      | cons x xs =>
        simp only [List.cons_append, reMatchPre]
        exact ih xs m (by simpa [reMatchPre] using h)
    | anyStar =>
      rw [reMatchPre] at h
      obtain ⟨ys, hmem, hys⟩ := List.any_eq_true.mp h
      rw [reMatchPre]
      exact List.any_eq_true.mpr ⟨ys ++ m, suffixes_append m n ys hmem, ih ys m hys⟩

/-- Claim C10: a pass-through entry containing `*` is converted by replacing
each `*` with `.*` and matched against each process-environment name anchored
only at the start: whenever the compiled pattern matches a prefix of a name
(matching is stable under appending trailing characters), the variable is
copied; a pattern such as `A*B` also matches names with arbitrary trailing
characters after the `B`; an entry without `*` is looked up by exact name
equality only. -/
theorem pass_env_glob_matching :
    (∀ (ps : List RTok) (n m : List Char),
      reMatchPre ps n = true → reMatchPre ps (n ++ m) = true) ∧
    (∀ (pe : List String) (os : List (String × String)) (p n v : String),
      p ∈ pe → hasStar p = true → globMatch p n = true →
      (dkeys os).Nodup → dlookup os n = some v →
      dlookup (passthrough_vars pe os) n = some v) ∧
    (∀ (pe : List String) (os : List (String × String)) (n v : String),
      (∀ q, q ∈ pe → hasStar q = false) →
      (dlookup (passthrough_vars pe os) n = some v ↔ n ∈ pe ∧ dlookup os n = some v)) ∧
    (globMatch "A*B" "AXB" = true ∧ globMatch "A*B" "AXBZZ" = true ∧
      globMatch "A*B" "AX" = false ∧
      dlookup (passthrough_vars ["A*B"] [("AXBZZ", "v")]) "AXBZZ" = some "v") := by
  refine ⟨reMatchPre_append, ?_, ?_, by refine ⟨rfl, rfl, rfl, rfl⟩⟩
  · intro pe os p n v hp hstar hmatch hnd hos
    have hpg : p ∈ pe.filter (fun e => hasStar e) := List.mem_filter.mpr ⟨hp, hstar⟩
    have hne : (pe.filter (fun e => hasStar e)).isEmpty = false := by
      cases hfe : pe.filter (fun e => hasStar e) with
      | nil => rw [hfe] at hpg; simp at hpg
      | cons a l => rfl
    have hany : (pe.filter (fun e => hasStar e)).any (fun g => globMatch g n) = true :=
      List.any_eq_true.mpr ⟨p, hpg, hmatch⟩
    have hcond : ¬((pe.filter (fun e => hasStar e)).isEmpty = true) := by
      rw [hne]
      simp
    simp only [passthrough_vars]
    rw [if_neg hcond]
    exact glob_fold_dlookup_mem (pe.filter (fun e => hasStar e)) os _ n v hnd hos hany
  · intro pe os n v hno
    have hglob : pe.filter (fun e => hasStar e) = [] := by
      rw [List.filter_eq_nil_iff]
      intro a ha
      simp [hno a ha]
    have hlit : pe.filter (fun e => !hasStar e) = pe := by
      rw [List.filter_eq_self]
      intro a ha
      simp [hno a ha]
    simp only [passthrough_vars]
    rw [hglob, hlit]
    rw [if_pos (by rfl)]
    constructor
    · intro h
      by_cases hmem : n ∈ pe
      · cases hos : dlookup os n with
        | none =>
          rw [lit_fold_dlookup_none os pe [] n hos] at h
          exact absurd h (by simp [dlookup])
        | some w =>
          rw [lit_fold_dlookup_mem os pe [] n w hmem hos] at h
          exact ⟨hmem, h⟩
      · rw [lit_fold_dlookup_not_mem os pe [] n hmem] at h
        exact absurd h (by simp [dlookup])
    · intro h
      exact lit_fold_dlookup_mem os pe [] n v h.1 h.2

/-- Witness for `pass_env_glob_matching`: the compiled `A*B` matching the
prefix `AXB` survives the trailing `ZZ`, and the passthrough stage copies the
variable `AXBZZ` matched by the glob against the live environment. -/
theorem pass_env_glob_matching_witness :
    reMatchPre (compileGlob "A*B") ("AXB".toList ++ "ZZ".toList) = true ∧
    dlookup (passthrough_vars ["A*B"] [("AXBZZ", "v")]) "AXBZZ" = some "v" ∧
    (dlookup (passthrough_vars ["HOME"] [("HOME", "/h"), ("HOMEX", "y")]) "HOMEX" = some "y" ↔
      "HOMEX" ∈ ["HOME"] ∧ dlookup [("HOME", "/h"), ("HOMEX", "y")] "HOMEX" = some "y") :=
  ⟨pass_env_glob_matching.1 (compileGlob "A*B") "AXB".toList "ZZ".toList (by rfl),
   pass_env_glob_matching.2.1 ["A*B"] [("AXBZZ", "v")] "A*B" "AXBZZ" "v"
     (List.mem_singleton.mpr rfl) (by rfl) (by rfl) (by decide) (by rfl),
   pass_env_glob_matching.2.2.1 ["HOME"] [("HOME", "/h"), ("HOMEX", "y")] "HOMEX" "y"
     (by intro q hq; rw [List.mem_singleton.mp hq]; rfl)⟩

/-! ## Claim C8: path computation de-duplicates, first occurrence wins -/

/-- Index of the first occurrence of `x` in `l` (length of `l` when absent). -/
def firstIdx (l : List String) (x : String) : Nat :=
  match l with
  | [] => 0
  | y :: ys => if y = x then 0 else firstIdx ys x + 1

theorem pairwise_mono_of_mem {α : Type} {R S : α → α → Prop} :
    ∀ {l : List α}, (∀ a, a ∈ l → ∀ b, b ∈ l → R a b → S a b) → l.Pairwise R → l.Pairwise S := by
  intro l H h
  rw [List.pairwise_iff_forall_sublist] at h ⊢
  intro a b hsub
  exact H a (hsub.subset (by simp)) b (hsub.subset (by simp)) (h hsub)

theorem dedupFirstAux_mem : ∀ (l seen : List String) (x : String),
    x ∈ dedupFirstAux seen l ↔ x ∈ l ∧ x ∉ seen := by
  intro l
  induction l with
  | nil =>
    intro seen x
    simp [dedupFirstAux]
  | cons y ys ih =>
    intro seen x
    by_cases hy : y ∈ seen
    · rw [dedupFirstAux, if_pos hy, ih seen x]
      constructor
      · rintro ⟨h1, h2⟩
        exact ⟨List.mem_cons_of_mem _ h1, h2⟩
      · rintro ⟨h1, h2⟩
        rcases List.mem_cons.mp h1 with h3 | h3
        · exact absurd (h3 ▸ hy) h2
        · exact ⟨h3, h2⟩
    · rw [dedupFirstAux, if_neg hy]
      constructor
      · intro h
        rcases List.mem_cons.mp h with h1 | h1
        · exact ⟨h1 ▸ List.mem_cons_self y ys, h1 ▸ hy⟩
        · have h2 := (ih (y :: seen) x).mp h1
          exact ⟨List.mem_cons_of_mem _ h2.1, fun hc => h2.2 (List.mem_cons_of_mem _ hc)⟩
      · rintro ⟨h1, h2⟩
        by_cases hxy : x = y
        · exact hxy ▸ List.mem_cons_self y _
        · rcases List.mem_cons.mp h1 with h3 | h3
          · exact absurd h3 hxy
          · refine List.mem_cons_of_mem _ ((ih (y :: seen) x).mpr ⟨h3, ?_⟩)
            intro hc
            rcases List.mem_cons.mp hc with h4 | h4
            · exact hxy h4
            · exact h2 h4

theorem dedupFirstAux_nodup : ∀ (l seen : List String), (dedupFirstAux seen l).Nodup := by
  intro l
  induction l with
  | nil =>
    intro seen
    simp [dedupFirstAux]
  | cons y ys ih =>
    intro seen
    by_cases hy : y ∈ seen
    · rw [dedupFirstAux, if_pos hy]
      exact ih seen
    · rw [dedupFirstAux, if_neg hy]
      refine List.nodup_cons.mpr ⟨?_, ih (y :: seen)⟩
      intro hc
      exact ((dedupFirstAux_mem ys (y :: seen) y).mp hc).2 (List.mem_cons_self y seen)

theorem dedupFirstAux_pairwise : ∀ (l seen : List String),
    (dedupFirstAux seen l).Pairwise (fun a b => firstIdx l a < firstIdx l b) := by
  intro l
  induction l with
  | nil =>
    intro seen
    simp [dedupFirstAux]
  | cons y ys ih =>
    intro seen
    by_cases hy : y ∈ seen
    · rw [dedupFirstAux, if_pos hy]
      refine pairwise_mono_of_mem ?_ (ih seen)
      intro a ha b hb hab
      have ha1 := (dedupFirstAux_mem ys seen a).mp ha
      have hb1 := (dedupFirstAux_mem ys seen b).mp hb
      have hya : ¬y = a := fun hh => ha1.2 (hh ▸ hy)
      have hyb : ¬y = b := fun hh => hb1.2 (hh ▸ hy)
      rw [firstIdx, if_neg hya]
      rw [firstIdx, if_neg hyb]
      exact Nat.succ_lt_succ hab
    · rw [dedupFirstAux, if_neg hy]
      refine List.pairwise_cons.mpr ⟨?_, ?_⟩
      · intro b hb
        have hb1 := (dedupFirstAux_mem ys (y :: seen) b).mp hb
        have hyb : ¬y = b := fun hh => hb1.2 (hh ▸ List.mem_cons_self y seen)
        rw [show firstIdx (y :: ys) y = 0 from by rw [firstIdx, if_pos rfl]]
        rw [firstIdx, if_neg hyb]
        exact Nat.succ_pos _
      · refine pairwise_mono_of_mem ?_ (ih (y :: seen))
        intro a ha b hb hab
        have ha1 := (dedupFirstAux_mem ys (y :: seen) a).mp ha
        have hb1 := (dedupFirstAux_mem ys (y :: seen) b).mp hb
        have hya : ¬y = a := fun hh => ha1.2 (hh ▸ List.mem_cons_self y seen)
        have hyb : ¬y = b := fun hh => hb1.2 (hh ▸ List.mem_cons_self y seen)
        rw [firstIdx, if_neg hya]
        rw [firstIdx, if_neg hyb]
        exact Nat.succ_lt_succ hab

/-- Claim C8: the path computation de-duplicates across the owned directories
followed by the inherited search path split on the separator; the resulting
list is duplicate-free, contains exactly the elements of that concatenation,
and is ordered by the position of each element's first occurrence (first
occurrence wins); the string result joins the survivors with the separator.
In the claim's example, owned `["/a", "/b"]` with inherited `"/b:/c"` give
`"/a:/b:/c"` (and `"/b:/a"` gives `"/a:/b"`, pinning first-wins order). -/
theorem make_path_dedup :
    (∀ (paths : List String) (os : List (String × String)),
      (pathItems paths os).Nodup) ∧
    (∀ (paths : List String) (os : List (String × String)) (x : String),
      x ∈ pathItems paths os ↔
        x ∈ paths ++ pySplit ':' ((dlookup os "PATH").getD "")) ∧
    (∀ (paths : List String) (os : List (String × String)),
      (pathItems paths os).Pairwise (fun a b =>
        firstIdx (paths ++ pySplit ':' ((dlookup os "PATH").getD "")) a <
          firstIdx (paths ++ pySplit ':' ((dlookup os "PATH").getD "")) b)) ∧
    (∀ (paths : List String) (os : List (String × String)),
      make_path paths os = joinSep ":" (pathItems paths os)) ∧
    make_path ["/a", "/b"] [("PATH", "/b:/c")] = "/a:/b:/c" ∧
    make_path ["/a", "/b"] [("PATH", "/b:/a")] = "/a:/b" := by
  refine ⟨?_, ?_, ?_, fun paths os => rfl, by rfl, by rfl⟩
  · intro paths os
    exact dedupFirstAux_nodup _ []
  · intro paths os x
    rw [pathItems, dedupFirst, dedupFirstAux_mem]
    simp
  · intro paths os
    exact dedupFirstAux_pairwise _ []

/-! ## Trace-counting helper lemmas for the setup lifecycle -/

theorem setup_env_trace (s : EnvState) : (ToxEnv.setup_env s).2 = [Event.setupEnvRun] := by
  cases hc : s.cacheToxEnv with
  | none => simp [ToxEnv.setup_env, Info.compare, hc]
  | some o =>
    simp only [ToxEnv.setup_env, Info.compare, hc]
    split <;> rfl

theorem tryOnce_setupEnvRuns (hook : Nat → Option Err) (n : Nat) (s : EnvState) :
    ToxEnv.countSetupEnvRuns (ToxEnv.tryOnce hook n s).2.2 = 1 := by
  have htr := setup_env_trace s
  rcases he : ToxEnv.setup_env s with ⟨res, ev⟩
  have hev : ev = [Event.setupEnvRun] := by
    rw [he] at htr
    exact htr
  subst hev
  cases res with
  | error e =>
    simp only [ToxEnv.tryOnce, he]
    rfl
  | ok s1 =>
    cases hh : hook n <;> simp only [ToxEnv.tryOnce, he, hh] <;> rfl

theorem clean_countSetupEnvRuns (s : EnvState) (f : Bool) :
    ToxEnv.countSetupEnvRuns (ToxEnv.clean s f).2 = 0 := by
  by_cases hc : s.runState.clean
  · simp [ToxEnv.clean, hc]
    rfl
  · by_cases hd : s.envDirExists <;> simp [ToxEnv.clean, hc, hd] <;> rfl

theorem clean_countHookCalls (s : EnvState) (f : Bool) :
    ToxEnv.countHookCalls (ToxEnv.clean s f).2 = 0 := by
  by_cases hc : s.runState.clean
  · simp [ToxEnv.clean, hc]
    rfl
  · by_cases hd : s.envDirExists <;> simp [ToxEnv.clean, hc, hd] <;> rfl

theorem clean_cache_none (s : EnvState) (f : Bool) (h : s.cacheToxEnv = none) :
    (ToxEnv.clean s f).1.cacheToxEnv = none := by
  by_cases hc : s.runState.clean
  · simp [ToxEnv.clean, hc, h]
  · by_cases hd : s.envDirExists <;> simp [ToxEnv.clean, hc, hd]

theorem setup_noop (fm : String → String → Bool) (hook : Nat → Option Err) (r : Bool)
    (s : EnvState) (h : s.runState.setup = true) :
    ToxEnv.setup fm hook r s = ⟨s, none, []⟩ := by
  rw [ToxEnv.setup, if_neg]
  rw [h]
  decide

theorem finalize_parts (st : EnvState) (e : Option Err) (tr : List Event) :
    (ToxEnv.finalize st e tr).state.runState.setup = true ∧
    (ToxEnv.finalize st e tr).state.runState.clean = false ∧
    (ToxEnv.finalize st e tr).trace.getLast? = some (Event.runStateSet true false) := by
  refine ⟨rfl, rfl, ?_⟩
  show (tr ++ [Event.runStateSet true false]).getLast? = some (Event.runStateSet true false)
  rw [List.getLast?_append_cons]
  rfl

/-! ## Claim C4: the `finally` clause always sets the flags -/

/-- Claim C4: every `setup()` call that runs and passes the platform check
leaves `setup_done = true` and `cleaned = false`, whatever the provisioning
attempts raised, and the flag update is the last event of the run (it is the
`finally` clause); on the path where the first attempt raises nothing, the
completion hook `_done_with_setup` runs immediately before that final flag
update. -/
theorem setup_finally_flags (fm : String → String → Bool) (hook : Nat → Option Err)
    (r : Bool) (s : EnvState)
    (h0 : s.runState.setup = false) (h1 : ToxEnv.platform_check fm s = none) :
    (ToxEnv.setup fm hook r s).state.runState.setup = true ∧
    (ToxEnv.setup fm hook r s).state.runState.clean = false ∧
    (ToxEnv.setup fm hook r s).trace.getLast? = some (Event.runStateSet true false) ∧
    ((ToxEnv.tryOnce hook 0
        (if r || s.confRecreate then (ToxEnv.clean s false).1 else s)).2.1 = none →
      ∃ pre, (ToxEnv.setup fm hook r s).trace =
        pre ++ [Event.doneWithSetup, Event.runStateSet true false]) := by
  unfold ToxEnv.setup
  rw [if_pos h0, h1]
  cases hr : (r || s.confRecreate) with
  | false =>
    simp only [hr, if_false, Bool.false_eq_true]
    cases ht : (ToxEnv.tryOnce hook 0 s).2.1 with
    | none =>
      simp only [ht]
      refine ⟨(finalize_parts _ _ _).1, (finalize_parts _ _ _).2.1,
        (finalize_parts _ _ _).2.2, ?_⟩
      intro _
      refine ⟨(ToxEnv.tryOnce hook 0 s).2.2, ?_⟩
      simp [ToxEnv.finalize]
    | some e =>
      cases e with
      | recreate reason =>
        simp only [ht, hr, Bool.false_eq_true, if_false]
        refine ⟨(finalize_parts _ _ _).1, (finalize_parts _ _ _).2.1,
          (finalize_parts _ _ _).2.2, ?_⟩
        intro hx
        exact Option.noConfusion hx
      | skip reason =>
        simp only [ht]
        refine ⟨(finalize_parts _ _ _).1, (finalize_parts _ _ _).2.1,
          (finalize_parts _ _ _).2.2, ?_⟩
        intro hx
        exact Option.noConfusion hx
      | other msg =>
        simp only [ht]
        refine ⟨(finalize_parts _ _ _).1, (finalize_parts _ _ _).2.1,
          (finalize_parts _ _ _).2.2, ?_⟩
        intro hx
        exact Option.noConfusion hx
  | true =>
    simp only [hr, if_true]
    cases ht : (ToxEnv.tryOnce hook 0 (ToxEnv.clean s false).1).2.1 with
    | none =>
      simp only [ht]
      refine ⟨(finalize_parts _ _ _).1, (finalize_parts _ _ _).2.1,
        (finalize_parts _ _ _).2.2, ?_⟩
      intro _
      refine ⟨(ToxEnv.clean s false).2 ++ (ToxEnv.tryOnce hook 0 (ToxEnv.clean s false).1).2.2, ?_⟩
      simp [ToxEnv.finalize]
    | some e =>
      cases e with
      | recreate reason =>
        simp only [ht, if_true]
        refine ⟨(finalize_parts _ _ _).1, (finalize_parts _ _ _).2.1,
          (finalize_parts _ _ _).2.2, ?_⟩
        intro hx
        exact Option.noConfusion hx
      | skip reason =>
        simp only [ht]
        refine ⟨(finalize_parts _ _ _).1, (finalize_parts _ _ _).2.1,
          (finalize_parts _ _ _).2.2, ?_⟩
        intro hx
        exact Option.noConfusion hx
      | other msg =>
        simp only [ht]
        refine ⟨(finalize_parts _ _ _).1, (finalize_parts _ _ _).2.1,
          (finalize_parts _ _ _).2.2, ?_⟩
        intro hx
        exact Option.noConfusion hx

/-- The trivial platform predicate used for concrete runs. -/
def fmT : String → String → Bool := fun _ _ => true

/-- Witness for `setup_finally_flags` at a fresh environment with a successful
hook: flags set, flag update last, completion hook right before it. -/
theorem setup_finally_flags_witness :
    (ToxEnv.setup fmT hookOk false s0).state.runState.setup = true ∧
    (ToxEnv.setup fmT hookOk false s0).state.runState.clean = false ∧
    (ToxEnv.setup fmT hookOk false s0).trace.getLast? = some (Event.runStateSet true false) ∧
    ((ToxEnv.tryOnce hookOk 0
        (if false || s0.confRecreate then (ToxEnv.clean s0 false).1 else s0)).2.1 = none →
      ∃ pre, (ToxEnv.setup fmT hookOk false s0).trace =
        pre ++ [Event.doneWithSetup, Event.runStateSet true false]) :=
  setup_finally_flags fmT hookOk false s0 rfl rfl

/-! ## Claim C1: the Recreate retry during setup -/

/-- Claim C1 (amended): on an environment whose setup has not yet completed,
with the effective recreate flag false (no `force_recreate` argument and no
`recreate` config), a `Recreate` raised by the first provisioning attempt is
logged as a warning, followed by a forced clean and exactly one retry (two
provisioning attempts in total); whatever exception the retry raises — in
particular a second `Recreate` — propagates as the call's error with no
further retry, and the `finally` clause nevertheless sets `setup_done` to
true on exit. -/
theorem setup_recreate_retry (fm : String → String → Bool) (hook : Nat → Option Err)
    (s s2 s3 s4 : EnvState) (reason : String) (r2 : Option Err) (tr2 tr3 tr4 : List Event)
    (h0 : s.runState.setup = false)
    (h1 : ToxEnv.platform_check fm s = none)
    (h2 : s.confRecreate = false)
    (h3 : ToxEnv.tryOnce hook 0 s = (s2, some (Err.recreate reason), tr2))
    (h4 : ToxEnv.clean s2 true = (s3, tr3))
    (h5 : ToxEnv.tryOnce hook 1 s3 = (s4, r2, tr4)) :
    ToxEnv.setup fm hook false s =
      ToxEnv.finalize s4 r2 (tr2 ++ [Event.logWarnRecreate reason] ++ tr3 ++ tr4) ∧
    (ToxEnv.setup fm hook false s).err = r2 ∧
    (ToxEnv.setup fm hook false s).state.runState.setup = true ∧
    ToxEnv.countSetupEnvRuns (ToxEnv.setup fm hook false s).trace = 2 ∧
    Event.logWarnRecreate reason ∈ (ToxEnv.setup fm hook false s).trace := by
  have hmain : ToxEnv.setup fm hook false s =
      ToxEnv.finalize s4 r2 (tr2 ++ [Event.logWarnRecreate reason] ++ tr3 ++ tr4) := by
    unfold ToxEnv.setup
    rw [if_pos h0, h1]
    simp only [h2, Bool.or_false, Bool.false_eq_true, if_false, h3, h4, h5]
    simp [ToxEnv.finalize, List.append_assoc]
  have c2 : ToxEnv.countSetupEnvRuns tr2 = 1 := by
    have h := tryOnce_setupEnvRuns hook 0 s
    rw [h3] at h
    exact h
  have c3 : ToxEnv.countSetupEnvRuns tr3 = 0 := by
    have h := clean_countSetupEnvRuns s2 true
    rw [h4] at h
    exact h
  have c4 : ToxEnv.countSetupEnvRuns tr4 = 1 := by
    have h := tryOnce_setupEnvRuns hook 1 s3
    rw [h5] at h
    exact h
  refine ⟨hmain, ?_, ?_, ?_, ?_⟩
  · rw [hmain]
    rfl
  · rw [hmain]
    rfl
  · rw [hmain]
    simp only [ToxEnv.finalize, ToxEnv.countSetupEnvRuns, List.countP_append] at c2 c3 c4 ⊢
    rw [c2, c3, c4]
    rfl
  · rw [hmain]
    simp [ToxEnv.finalize]

/-- The state after the first failed provisioning attempt on `s0` with
`hookRR`. -/
def c1s2 : EnvState :=
  { s0 with cacheToxEnv := some { name := "py", envType := "VirtualEnv" }, tmpDirExists := true }

/-- The state after the forced clean of the retry. -/
def c1s3 : EnvState :=
  { c1s2 with cacheToxEnv := none,
              runState := { setup := false, clean := true, teardown := false } }

/-- The state after the second failed provisioning attempt. -/
def c1s4 : EnvState :=
  { c1s3 with cacheToxEnv := some { name := "py", envType := "VirtualEnv" } }

/-- Witness for `setup_recreate_retry` at a fresh state with a hook raising
`Recreate` on both attempts: the second `Recreate` propagates, two attempts
ran, and `setup_done` ends true. -/
theorem setup_recreate_retry_witness :
    (ToxEnv.setup fmT hookRR false s0).err = some (Err.recreate "second") ∧
    (ToxEnv.setup fmT hookRR false s0).state.runState.setup = true ∧
    ToxEnv.countSetupEnvRuns (ToxEnv.setup fmT hookRR false s0).trace = 2 := by
  have h := setup_recreate_retry fmT hookRR s0 c1s2 c1s3 c1s4 "first"
    (some (Err.recreate "second"))
    [Event.setupEnvRun, Event.setupWithEnv 0]
    [Event.cleanCalled true, Event.cleanPerformed]
    [Event.setupEnvRun, Event.setupWithEnv 1]
    rfl rfl rfl rfl rfl rfl
  exact ⟨h.2.1, h.2.2.1, h.2.2.2.1⟩

/-- Claim C1 as stated is false on the code: in the double-`Recreate` scenario
the claim asserts that `setup_done` remains false, but at this concrete input
the second `Recreate` propagates while the `finally` clause has set
`setup_done` to true. -/
theorem setup_recreate_retry_counterexample :
    (ToxEnv.setup fmT hookRR false s0).err = some (Err.recreate "second") ∧
    ¬((ToxEnv.setup fmT hookRR false s0).state.runState.setup = false) :=
  ⟨rfl, fun h => Bool.noConfusion ((rfl :
    true = (ToxEnv.setup fmT hookRR false s0).state.runState.setup).trans h)⟩

/-! ## Claim C2: setup is idempotent once completed -/

/-- Claim C2: a first `setup()` call on a fresh environment provisions exactly
once and ends with `setup_done = true`; a second call — even with
`force_recreate = true` — is a silent no-op: the state is unchanged, no event
happens, and across both calls the provisioning hook ran exactly once. -/
theorem setup_idempotent (fm fm2 : String → String → Bool) (hook hook2 : Nat → Option Err)
    (r : Bool) (s : EnvState)
    (h0 : s.runState.setup = false)
    (h1 : ToxEnv.platform_check fm s = none)
    (h2 : s.cacheToxEnv = none)
    (h3 : hook 0 = none) :
    (ToxEnv.setup fm hook r s).err = none ∧
    (ToxEnv.setup fm hook r s).state.runState.setup = true ∧
    ToxEnv.countHookCalls (ToxEnv.setup fm hook r s).trace = 1 ∧
    ToxEnv.setup fm2 hook2 true (ToxEnv.setup fm hook r s).state =
      ⟨(ToxEnv.setup fm hook r s).state, none, []⟩ ∧
    ToxEnv.countHookCalls ((ToxEnv.setup fm hook r s).trace ++
      (ToxEnv.setup fm2 hook2 true (ToxEnv.setup fm hook r s).state).trace) = 1 ∧
    (∀ (fm3 : String → String → Bool) (hook3 : Nat → Option Err) (r3 : Bool) (u : EnvState),
      u.runState.setup = true → ToxEnv.setup fm3 hook3 r3 u = ⟨u, none, []⟩) := by
  have hs1cache : (if r || s.confRecreate then (ToxEnv.clean s false).1 else s).cacheToxEnv =
      none := by
    by_cases hr : (r || s.confRecreate) = true
    · rw [if_pos hr]
      exact clean_cache_none s false h2
    · rw [if_neg hr]
      exact h2
  obtain ⟨s1ok, henv, hcache⟩ := (setup_env_fingerprint
    (if r || s.confRecreate then (ToxEnv.clean s false).1 else s)).1 hs1cache
  have htry : ToxEnv.tryOnce hook 0 (if r || s.confRecreate then (ToxEnv.clean s false).1 else s) =
      (s1ok, none, [Event.setupEnvRun, Event.setupWithEnv 0]) := by
    unfold ToxEnv.tryOnce
    rw [henv]
    simp [h3]
  have hmain : ToxEnv.setup fm hook r s =
      ToxEnv.finalize s1ok none
        ((if r || s.confRecreate then (ToxEnv.clean s false).2 else []) ++
          [Event.setupEnvRun, Event.setupWithEnv 0] ++ [Event.doneWithSetup]) := by
    unfold ToxEnv.setup
    rw [if_pos h0, h1]
    simp only [htry]
  have hc0 : ToxEnv.countHookCalls
      (if r || s.confRecreate then (ToxEnv.clean s false).2 else []) = 0 := by
    by_cases hr : (r || s.confRecreate) = true
    · rw [if_pos hr]
      exact clean_countHookCalls s false
    · rw [if_neg hr]
      rfl
  have hcount : ToxEnv.countHookCalls (ToxEnv.setup fm hook r s).trace = 1 := by
    rw [hmain]
    simp only [ToxEnv.countHookCalls] at hc0
    simp only [ToxEnv.finalize, ToxEnv.countHookCalls, List.countP_append]
    rw [hc0]
    rfl
  have hset : (ToxEnv.setup fm hook r s).state.runState.setup = true := by
    rw [hmain]
    rfl
  have hnoop := setup_noop fm2 hook2 true (ToxEnv.setup fm hook r s).state hset
  refine ⟨?_, hset, hcount, hnoop, ?_, setup_noop⟩
  · rw [hmain]
    rfl
  · rw [hnoop]
    simp only [List.append_nil]
    exact hcount

/-- Witness for `setup_idempotent` on a fresh environment: the second call,
forced, is a no-op and the hook count stays 1. -/
theorem setup_idempotent_witness :
    (ToxEnv.setup fmT hookOk false s0).err = none ∧
    (ToxEnv.setup fmT hookOk false s0).state.runState.setup = true ∧
    ToxEnv.countHookCalls (ToxEnv.setup fmT hookOk false s0).trace = 1 ∧
    ToxEnv.setup fmT hookOk true (ToxEnv.setup fmT hookOk false s0).state =
      ⟨(ToxEnv.setup fmT hookOk false s0).state, none, []⟩ ∧
    ToxEnv.countHookCalls ((ToxEnv.setup fmT hookOk false s0).trace ++
      (ToxEnv.setup fmT hookOk true (ToxEnv.setup fmT hookOk false s0).state).trace) = 1 := by
  have h := setup_idempotent fmT fmT hookOk hookOk false s0 rfl rfl rfl rfl
  exact ⟨h.1, h.2.1, h.2.2.1, h.2.2.2.1, h.2.2.2.2.1⟩

end Tox
